import Mathlib

/-!
Shallow embedding of the position valuation and portfolio engine of the
crypto-liquidation-calculator repository.

All JavaScript numbers are modelled as rationals (`ℚ`); timestamps and other
strings produced by `Date` are passed in explicitly as parameters so that every
operation is a pure function.  A value of type `Option ℚ` models the result of
`Number.parseFloat` on a user-supplied string (`none` = `NaN`), and the result
of a market-data fetch (`none` = fetch failure or missing USD quote).
-/

namespace CryptoLiq

/-- `"long" | "short"` from `liquidation-calculator.tsx`. -/
inductive PositionType where
  | long
  | short
deriving DecidableEq, Repr

/-- `"open" | "closed"` on `PortfolioPosition` (`opened` stands for the source's
`"open"`, which is a keyword in Lean). -/
inductive Status where
  | opened
  | closed
deriving DecidableEq, Repr

/-- `"low" | "medium" | "high" | "critical"` risk levels. -/
inductive RiskLevel where
  | low
  | medium
  | high
  | critical
deriving DecidableEq, Repr

/-- `interface Position` from `liquidation-calculator.tsx`. -/
structure Position where
  symbol : String
  entryPrice : ℚ
  leverage : ℚ
  positionType : PositionType
  positionSize : ℚ
  marginUsed : ℚ
deriving DecidableEq, Repr

/-- `interface CalculationResult` built by `calculateLiquidation` in
`calculator-form.tsx`. -/
structure CalculationResult where
  liquidationPrice : ℚ
  marginRequired : ℚ
  riskPercentage : ℚ
  profitLossRatio : ℚ
  positionSize : ℚ
deriving DecidableEq, Repr

/-- `interface PortfolioPosition extends Position` from
`portfolio-tracker.tsx`. -/
structure PortfolioPosition extends Position where
  id : String
  currentPrice : ℚ
  liquidationPrice : ℚ
  unrealizedPnL : ℚ
  unrealizedPnLPercentage : ℚ
  riskLevel : RiskLevel
  distanceToLiquidation : ℚ
  lastUpdated : String
  addedAt : String
  status : Status
  exitPrice : Option ℚ
  exitDate : Option String
  realizedPnL : Option ℚ
  notes : Option String
  closeReason : Option String
deriving DecidableEq, Repr

/-- `Number.parseFloat(liquidationPrice.toFixed(8))`: round to 8 decimal
places. -/
def toFixed8 (x : ℚ) : ℚ := (round (x * 100000000) : ℤ) / 100000000

/-- `const positionSizeNum = Number.parseFloat(positionSize) || 1000` in
`calculator-form.tsx`: `NaN` and `0` are falsy, so they fall back to the
default `1000`; any other number (negative included) is kept. -/
def parsePositionSize : Option ℚ → ℚ
  | none => 1000
  | some x => if x = 0 then 1000 else x

/-- `calculateLiquidation` from `calculator-form.tsx` (lines 173-243): parse
the three numeric inputs, validate, and build the `CalculationResult` and the
`Position`.  A thrown validation error is modelled as `Except.error` with the
source's message. -/
def calculateLiquidation (entryPrice leverage positionSize : Option ℚ)
    (positionType : PositionType) (symbol : String) :
    Except String (CalculationResult × Position) :=
  let positionSizeNum := parsePositionSize positionSize
  match entryPrice, leverage with
  | some entryPriceNum, some leverageNum =>
    if leverageNum ≤ 1 then
      .error "Please enter valid numbers. Leverage must be greater than 1."
    else if entryPriceNum ≤ 0 then
      .error "Entry price must be greater than 0."
    else
      let liquidationPrice : ℚ :=
        match positionType with
        | .long => entryPriceNum * (1 - 1 / leverageNum)
        | .short => entryPriceNum * (1 + 1 / leverageNum)
      let marginRequired := positionSizeNum / leverageNum
      let riskPercentage := (1 / leverageNum) * 100
      let profitLossRatio := leverageNum
      .ok ({ liquidationPrice := toFixed8 liquidationPrice,
             marginRequired := marginRequired,
             riskPercentage := riskPercentage,
             profitLossRatio := profitLossRatio,
             positionSize := positionSizeNum },
           { symbol := symbol,
             entryPrice := entryPriceNum,
             leverage := leverageNum,
             positionType := positionType,
             positionSize := positionSizeNum,
             marginUsed := marginRequired })
  | _, _ =>
    .error "Please enter valid numbers. Leverage must be greater than 1."

/-- Claim C1: for every entryPrice > 0 and leverage > 1 the liquidation-price
calculation succeeds and returns `entryPrice * (1 - 1/leverage)` for a Long
position and `entryPrice * (1 + 1/leverage)` for a Short position, rounded to
8 decimal places. -/
theorem liquidationPrice_spec (ep lev : ℚ) (sz : Option ℚ) (sym : String)
    (hep : 0 < ep) (hlev : 1 < lev) :
    (calculateLiquidation (some ep) (some lev) sz .long sym).map
        (fun r => r.1.liquidationPrice) = .ok (toFixed8 (ep * (1 - 1 / lev)))
    ∧ (calculateLiquidation (some ep) (some lev) sz .short sym).map
        (fun r => r.1.liquidationPrice) = .ok (toFixed8 (ep * (1 + 1 / lev))) := by
  have h1 : ¬ lev ≤ 1 := not_le.mpr hlev
  have h2 : ¬ ep ≤ 0 := not_le.mpr hep
  constructor <;> simp [calculateLiquidation, h1, h2, Except.map]

/-- Claim C1 witness: the spec scenario entryPrice = 50000, leverage = 10,
Long yields liquidationPrice = 45000. -/
theorem liquidationPrice_spec_witness :
    (calculateLiquidation (some 50000) (some 10) none .long "BTC").map
        (fun r => r.1.liquidationPrice) = .ok 45000 := by
  have h := liquidationPrice_spec 50000 10 none "BTC" (by norm_num) (by norm_num)
  rw [h.1]
  norm_num [toFixed8]

/-- Claim C3 counterexample: a strictly negative position size is accepted by
`calculateLiquidation` (the claim says creation must fail whenever
positionSize ≤ 0). -/
theorem createPosition_negative_size_accepted :
    ((-500 : ℚ) ≤ 0)
    ∧ (calculateLiquidation (some 100) (some 2) (some (-500)) .long "BTC").isOk
        = true := by
  constructor
  · norm_num
  · rfl

/-- Claim C3 (amended): with numeric entryPrice and leverage, creation fails
exactly when entryPrice ≤ 0 or leverage ≤ 1; positionSize is never validated
(zero or non-numeric sizes default to 1000 and negative sizes are accepted). -/
theorem calculateLiquidation_ok_iff (ep lev : ℚ) (sz : Option ℚ)
    (pt : PositionType) (sym : String) :
    (calculateLiquidation (some ep) (some lev) sz pt sym).isOk = true
      ↔ (0 < ep ∧ 1 < lev) := by
  by_cases h1 : lev ≤ 1
  · have hf : (calculateLiquidation (some ep) (some lev) sz pt sym).isOk = false := by
      simp [calculateLiquidation, h1, Except.isOk, Except.toBool]
    rw [hf]
    constructor
    · intro h
      exact absurd h (by decide)
    · intro h
      exact absurd h.2 (not_lt.mpr h1)
  · by_cases h2 : ep ≤ 0
    · have hf : (calculateLiquidation (some ep) (some lev) sz pt sym).isOk = false := by
        simp [calculateLiquidation, h1, h2, Except.isOk, Except.toBool]
      rw [hf]
      constructor
      · intro h
        exact absurd h (by decide)
      · intro h
        exact absurd h.1 (not_lt.mpr h2)
    · have ht : (calculateLiquidation (some ep) (some lev) sz pt sym).isOk = true := by
        simp [calculateLiquidation, h1, h2, Except.isOk, Except.toBool]
      rw [ht]
      simp only [true_iff]
      exact ⟨not_le.mp h2, not_le.mp h1⟩

/-- Return type of `calculatePnL` in `portfolio-tracker.tsx`. -/
structure PnLResult where
  unrealizedPnL : ℚ
  unrealizedPnLPercentage : ℚ
deriving DecidableEq, Repr

/-- `calculatePnL` from `portfolio-tracker.tsx` (lines 112-129): leveraged
unrealized profit and loss of a position at a given price. -/
def calculatePnL (position : PortfolioPosition) (currentPrice : ℚ) : PnLResult :=
  let priceChange := currentPrice - position.entryPrice
  let priceChangePercentage := priceChange / position.entryPrice * 100
  let effectivePriceChange :=
    match position.positionType with
    | .long => priceChangePercentage
    | .short => -priceChangePercentage
  let leveragedReturn := effectivePriceChange * position.leverage
  let unrealizedPnL := position.positionSize * leveragedReturn / 100
  { unrealizedPnL := unrealizedPnL, unrealizedPnLPercentage := leveragedReturn }

/-- The distance-to-liquidation percentage, computed identically (and inline)
in `calculateRiskLevel` (lines 135-138) and in `updateAllPrices`
(lines 165-168) of `portfolio-tracker.tsx`. -/
def distancePct (position : PortfolioPosition) (currentPrice : ℚ) : ℚ :=
  match position.positionType with
  | .long => (currentPrice - position.liquidationPrice) / currentPrice * 100
  | .short => (position.liquidationPrice - currentPrice) / currentPrice * 100

/-- `calculateRiskLevel` from `portfolio-tracker.tsx` (lines 131-144). -/
def calculateRiskLevel (position : PortfolioPosition) (currentPrice : ℚ) :
    RiskLevel :=
  let distanceToLiquidation := distancePct position currentPrice
  if distanceToLiquidation ≤ 5 then .critical
  else if distanceToLiquidation ≤ 15 then .high
  else if distanceToLiquidation ≤ 30 then .medium
  else .low

/-- The per-position body of `updateAllPrices` (lines 153-185 of
`portfolio-tracker.tsx`).  `prices` is the market-data collaborator: `none`
models a failed fetch or a response without a USD quote, in which case the
position is returned unchanged, as in the source's `catch` / missing-quote
branches.  `now` is the wall-clock string written to `lastUpdated`. -/
def updateOne (prices : String → Option ℚ) (now : String)
    (position : PortfolioPosition) : PortfolioPosition :=
  if position.status = .closed then position
  else
    match prices position.symbol with
    | none => position
    | some currentPrice =>
      let pnl := calculatePnL position currentPrice
      { position with
        currentPrice := currentPrice,
        unrealizedPnL := pnl.unrealizedPnL,
        unrealizedPnLPercentage := pnl.unrealizedPnLPercentage,
        riskLevel := calculateRiskLevel position currentPrice,
        distanceToLiquidation := max 0 (distancePct position currentPrice),
        lastUpdated := now }

/-- `updateAllPrices` from `portfolio-tracker.tsx` (lines 146-188): each
position is updated independently from the fetched price of its own symbol. -/
def updateAllPrices (prices : String → Option ℚ) (now : String)
    (positions : List PortfolioPosition) : List PortfolioPosition :=
  positions.map (updateOne prices now)

lemma updateOne_closed {prices : String → Option ℚ} {now : String}
    {p : PortfolioPosition} (h : p.status = .closed) :
    updateOne prices now p = p := by
  simp [updateOne, h]

lemma updateOne_nofetch {prices : String → Option ℚ} {now : String}
    {p : PortfolioPosition} (h : prices p.symbol = none) :
    updateOne prices now p = p := by
  unfold updateOne
  split
  · rfl
  · rw [h]

lemma updateOne_congr {prices g : String → Option ℚ} {now : String}
    {p : PortfolioPosition} (h : g p.symbol = prices p.symbol) :
    updateOne g now p = updateOne prices now p := by
  unfold updateOne
  rw [h]

lemma updateOne_id (prices : String → Option ℚ) (now : String)
    (p : PortfolioPosition) : (updateOne prices now p).id = p.id := by
  unfold updateOne
  split
  · rfl
  · cases prices p.symbol <;> rfl

lemma updateOne_idem (prices : String → Option ℚ) (now : String)
    (p : PortfolioPosition) :
    updateOne prices now (updateOne prices now p) = updateOne prices now p := by
  obtain ⟨⟨sym, ep, lev, pt, psz, mu⟩, pid, cp0, lp, upnl, upct, rl, dtl, lu, aa,
    st, xp, xd, rp, nt, cr⟩ := p
  by_cases hs : st = Status.closed
  · simp [updateOne, hs]
  · cases hp : prices sym
    · simp [updateOne, hs, hp]
    · simp [updateOne, hs, hp, calculatePnL, calculateRiskLevel, distancePct]

/-- A sample open long position used to instantiate the portfolio theorems:
entry 100, leverage 10, size 1000, margin 100, liquidation 90. -/
def pLong : PortfolioPosition :=
  { symbol := "BTC", entryPrice := 100, leverage := 10, positionType := .long,
    positionSize := 1000, marginUsed := 100,
    id := "pos_1", currentPrice := 100, liquidationPrice := 90,
    unrealizedPnL := 0, unrealizedPnLPercentage := 0, riskLevel := .low,
    distanceToLiquidation := 10, lastUpdated := "t0", addedAt := "d0",
    status := .opened, exitPrice := none, exitDate := none, realizedPnL := none,
    notes := none, closeReason := none }

/-- Claim C5: the unrealized P&L is `positionSize * leveragedReturnPct / 100`
with `leveragedReturnPct = leverage * priceChangePct` for Long and its
negation for Short; it is 0 at the entry price, and it is not clamped at the
liquidation boundary: once the price crosses the liquidation price the
reported loss strictly exceeds the margin. -/
theorem calculatePnL_spec (p : PortfolioPosition) (cp : ℚ)
    (hep : 0 < p.entryPrice) (hlev : 1 < p.leverage)
    (hsize : 0 < p.positionSize)
    (hmargin : p.marginUsed = p.positionSize / p.leverage) :
    (calculatePnL p p.entryPrice).unrealizedPnL = 0
    ∧ (p.positionType = .long →
        (calculatePnL p cp).unrealizedPnL
          = p.positionSize
              * (p.leverage * ((cp - p.entryPrice) / p.entryPrice * 100)) / 100)
    ∧ (p.positionType = .short →
        (calculatePnL p cp).unrealizedPnL
          = p.positionSize
              * (p.leverage * (-((cp - p.entryPrice) / p.entryPrice * 100))) / 100)
    ∧ (p.positionType = .long →
        p.liquidationPrice = p.entryPrice * (1 - 1 / p.leverage) →
        cp < p.liquidationPrice →
        (calculatePnL p cp).unrealizedPnL < -p.marginUsed)
    ∧ (p.positionType = .short →
        p.liquidationPrice = p.entryPrice * (1 + 1 / p.leverage) →
        p.liquidationPrice < cp →
        (calculatePnL p cp).unrealizedPnL < -p.marginUsed) := by
  have hlev0 : 0 < p.leverage := lt_trans one_pos hlev
  have hmargin_lt : p.marginUsed < p.positionSize := by
    rw [hmargin]
    exact div_lt_self hsize hlev
  refine ⟨?_, ?_, ?_, ?_, ?_⟩
  · cases hpt : p.positionType <;> simp [calculatePnL, hpt]
  · intro hpt
    simp only [calculatePnL, hpt]
    ring
  · intro hpt
    simp only [calculatePnL, hpt]
    ring
  · intro hpt hliq hcp
    have hcalc : (calculatePnL p cp).unrealizedPnL
        = p.positionSize * ((cp - p.entryPrice) / p.entryPrice * p.leverage) := by
      simp only [calculatePnL, hpt]
      ring
    rw [hcalc]
    rw [hliq] at hcp
    have hexp : p.entryPrice * (1 - 1 / p.leverage)
        = p.entryPrice - p.entryPrice / p.leverage := by
      ring
    rw [hexp] at hcp
    have hXl : (cp - p.entryPrice) / p.entryPrice * p.leverage < -1 := by
      rw [div_mul_eq_mul_div, div_lt_iff₀ hep]
      have h0 : (cp - p.entryPrice) * p.leverage
          < -(p.entryPrice / p.leverage) * p.leverage := by
        apply mul_lt_mul_of_pos_right _ hlev0
        linarith
      have h1 : -(p.entryPrice / p.leverage) * p.leverage = -p.entryPrice := by
        field_simp
      linarith [h0, h1.symm ▸ h0]
    have h2 : p.positionSize * ((cp - p.entryPrice) / p.entryPrice * p.leverage)
        < p.positionSize * (-1) := mul_lt_mul_of_pos_left hXl hsize
    have h3 : p.positionSize * (-1 : ℚ) = -p.positionSize := by ring
    linarith [hmargin_lt]
  · intro hpt hliq hcp
    have hcalc : (calculatePnL p cp).unrealizedPnL
        = -(p.positionSize * ((cp - p.entryPrice) / p.entryPrice * p.leverage)) := by
      simp only [calculatePnL, hpt]
      ring
    rw [hcalc]
    rw [hliq] at hcp
    have hexp : p.entryPrice * (1 + 1 / p.leverage)
        = p.entryPrice + p.entryPrice / p.leverage := by
      ring
    rw [hexp] at hcp
    have hXl : 1 < (cp - p.entryPrice) / p.entryPrice * p.leverage := by
      rw [div_mul_eq_mul_div, lt_div_iff₀ hep]
      have h0 : (p.entryPrice / p.leverage) * p.leverage
          < (cp - p.entryPrice) * p.leverage := by
        apply mul_lt_mul_of_pos_right _ hlev0
        linarith
      have h1 : (p.entryPrice / p.leverage) * p.leverage = p.entryPrice := by
        field_simp
      linarith [h0, h1 ▸ h0]
    have h2 : p.positionSize * 1
        < p.positionSize * ((cp - p.entryPrice) / p.entryPrice * p.leverage) :=
      mul_lt_mul_of_pos_left hXl hsize
    have h3 : p.positionSize * (1 : ℚ) = p.positionSize := by ring
    linarith [hmargin_lt]

/-- Claim C5 witness: at entry price the P&L of the sample position is 0, and
at price 80 (below the liquidation price 90) the loss 2000 strictly exceeds
the margin 100. -/
theorem calculatePnL_spec_witness :
    (calculatePnL pLong 100).unrealizedPnL = 0
    ∧ (calculatePnL pLong 80).unrealizedPnL < -pLong.marginUsed := by
  have h := calculatePnL_spec pLong 80 (by norm_num [pLong]) (by norm_num [pLong])
    (by norm_num [pLong]) (by norm_num [pLong])
  exact ⟨h.1, h.2.2.2.1 rfl (by norm_num [pLong]) (by norm_num [pLong])⟩

/-- Claim C6: the risk tier is classified from the unclamped
distance-to-liquidation percentage with boundaries 5 / 15 / 30, and the
`distanceToLiquidation` stored by a price refresh is the same distance
clamped below at 0. -/
theorem riskLevel_tiers (prices : String → Option ℚ) (now : String)
    (p : PortfolioPosition) (cp : ℚ) :
    (calculateRiskLevel p cp = .critical ↔ distancePct p cp ≤ 5)
    ∧ (calculateRiskLevel p cp = .high
        ↔ 5 < distancePct p cp ∧ distancePct p cp ≤ 15)
    ∧ (calculateRiskLevel p cp = .medium
        ↔ 15 < distancePct p cp ∧ distancePct p cp ≤ 30)
    ∧ (calculateRiskLevel p cp = .low ↔ 30 < distancePct p cp)
    ∧ (p.status = .opened → prices p.symbol = some cp →
        (updateOne prices now p).distanceToLiquidation
            = max 0 (distancePct p cp)
        ∧ (updateOne prices now p).riskLevel = calculateRiskLevel p cp) := by
  refine ⟨?_, ?_, ?_, ?_, ?_⟩
  · simp only [calculateRiskLevel]
    split_ifs with h1 h2 h3 <;> simp_all
  · simp only [calculateRiskLevel]
    split_ifs with h1 h2 h3 <;> simp_all
  · simp only [calculateRiskLevel]
    split_ifs with h1 h2 h3 <;> simp_all
    all_goals try intro h
    all_goals linarith
  · simp only [calculateRiskLevel]
    split_ifs with h1 h2 h3 <;> simp_all
    all_goals linarith
  · intro hs hp
    constructor <;> simp [updateOne, hs, hp]

/-- The position of the spec's scenario: entry 50000, leverage 10, Long,
liquidation price 45000. -/
def pScenario : PortfolioPosition :=
  { symbol := "BTC", entryPrice := 50000, leverage := 10, positionType := .long,
    positionSize := 1000, marginUsed := 100,
    id := "pos_2", currentPrice := 50000, liquidationPrice := 45000,
    unrealizedPnL := 0, unrealizedPnLPercentage := 0, riskLevel := .low,
    distanceToLiquidation := 10, lastUpdated := "t0", addedAt := "d0",
    status := .opened, exitPrice := none, exitDate := none, realizedPnL := none,
    notes := none, closeReason := none }

/-- Claim C6 witness: the spec scenario — at current price 47500 the distance
is 100/19 ≈ 5.26%, so the tier is High, and a refresh stores the clamped
distance. -/
theorem riskLevel_tiers_witness :
    calculateRiskLevel pScenario 47500 = .high
    ∧ (updateOne (fun s => if s = "BTC" then some 47500 else none) "t1"
          pScenario).distanceToLiquidation
        = max 0 (distancePct pScenario 47500) := by
  have h := riskLevel_tiers (fun s => if s = "BTC" then some 47500 else none)
    "t1" pScenario 47500
  refine ⟨h.2.1.mpr ⟨?_, ?_⟩, (h.2.2.2.2 rfl (by simp [pScenario])).1⟩
  · norm_num [distancePct, pScenario]
  · norm_num [distancePct, pScenario]

/-- Claim C4: a price refresh leaves every Closed position unchanged, leaves
every position with no fetched price unchanged, and updates each position
only from the price of its own symbol, so a fetch failure for one symbol does
not prevent the recomputation of the others. -/
theorem updateAllPrices_frame (prices g : String → Option ℚ) (now : String)
    (ps : List PortfolioPosition) (i : ℕ) (hi : i < ps.length)
    (hi2 : i < (updateAllPrices prices now ps).length)
    (hg2 : i < (updateAllPrices g now ps).length) :
    ((ps.get ⟨i, hi⟩).status = .closed →
        (updateAllPrices prices now ps).get ⟨i, hi2⟩ = ps.get ⟨i, hi⟩)
    ∧ (prices (ps.get ⟨i, hi⟩).symbol = none →
        (updateAllPrices prices now ps).get ⟨i, hi2⟩ = ps.get ⟨i, hi⟩)
    ∧ (g (ps.get ⟨i, hi⟩).symbol = prices (ps.get ⟨i, hi⟩).symbol →
        (updateAllPrices g now ps).get ⟨i, hg2⟩
          = (updateAllPrices prices now ps).get ⟨i, hi2⟩) := by
  have hmap : ∀ (f : String → Option ℚ)
      (h : i < (updateAllPrices f now ps).length),
      (updateAllPrices f now ps).get ⟨i, h⟩
        = updateOne f now (ps.get ⟨i, hi⟩) := by
    intro f h
    simp [updateAllPrices, List.get_eq_getElem, List.getElem_map]
  refine ⟨?_, ?_, ?_⟩
  · intro h
    rw [hmap prices hi2, updateOne_closed h]
  · intro h
    rw [hmap prices hi2, updateOne_nofetch h]
  · intro h
    rw [hmap g hg2, hmap prices hi2, updateOne_congr h]

/-- A sample closed position. -/
def pClosedW : PortfolioPosition :=
  { symbol := "ETH", entryPrice := 3000, leverage := 20, positionType := .short,
    positionSize := 2000, marginUsed := 100,
    id := "pos_3", currentPrice := 3100, liquidationPrice := 3150,
    unrealizedPnL := -1333, unrealizedPnLPercentage := -66,
    riskLevel := .critical, distanceToLiquidation := 0, lastUpdated := "t0",
    addedAt := "d0", status := .closed, exitPrice := some 3100,
    exitDate := some "d1", realizedPnL := some (-1333), notes := some "",
    closeReason := some "manual" }

/-- Claim C4 witness: a refresh over a store holding one Closed position
returns it verbatim even though a price was fetched for its symbol. -/
theorem updateAllPrices_frame_witness :
    (updateAllPrices (fun _ => some 3200) "t1" [pClosedW]).get
        ⟨0, by simp [updateAllPrices]⟩ = pClosedW := by
  have h := updateAllPrices_frame (fun _ => some 3200) (fun _ => none) "t1"
    [pClosedW] 0 (by simp) (by simp [updateAllPrices])
    (by simp [updateAllPrices])
  exact h.1 rfl

/-- Claim C7: a price refresh is idempotent — refreshing twice with the same
price map (and the same clock reading) gives exactly the records of a single
refresh. -/
theorem updateAllPrices_idempotent (prices : String → Option ℚ) (now : String)
    (ps : List PortfolioPosition) :
    updateAllPrices prices now (updateAllPrices prices now ps)
      = updateAllPrices prices now ps := by
  induction ps with
  | nil => rfl
  | cons p t ih =>
    simp only [updateAllPrices, List.map_cons] at ih ⊢
    rw [updateOne_idem]
    exact congrArg _ ih

/-- Claim C10: a price refresh neither adds nor removes positions and keeps
the collection's order — the result has the same length and the position at
every index keeps its id. -/
theorem updateAllPrices_preserves_ids (prices : String → Option ℚ)
    (now : String) (ps : List PortfolioPosition) (i : ℕ) (hi : i < ps.length)
    (hi2 : i < (updateAllPrices prices now ps).length) :
    (updateAllPrices prices now ps).length = ps.length
    ∧ ((updateAllPrices prices now ps).get ⟨i, hi2⟩).id
        = (ps.get ⟨i, hi⟩).id := by
  constructor
  · simp [updateAllPrices]
  · have h : (updateAllPrices prices now ps).get ⟨i, hi2⟩
        = updateOne prices now (ps.get ⟨i, hi⟩) := by
      simp [updateAllPrices, List.get_eq_getElem, List.getElem_map]
    rw [h, updateOne_id]

/-- Claim C10 witness: refreshing the sample one-position store keeps length 1
and the id of the position at index 0. -/
theorem updateAllPrices_preserves_ids_witness :
    (updateAllPrices (fun _ => some 95) "t1" [pLong]).length = 1
    ∧ ((updateAllPrices (fun _ => some 95) "t1" [pLong]).get
          ⟨0, by simp [updateAllPrices]⟩).id = "pos_1" := by
  have h := updateAllPrices_preserves_ids (fun _ => some 95) "t1" [pLong] 0
    (by simp) (by simp [updateAllPrices])
  exact ⟨h.1, by rw [h.2]; rfl⟩

/-- Decimal string of a natural number: models the interpolation of
`Date.now()` into a template string.  `Nat.digits 10 n` is the little-endian
digit list, so the reversed list printed with `Nat.digitChar` is the usual
decimal numeral. -/
def decimalRepr (n : ℕ) : String :=
  if n = 0 then "0"
  else ((Nat.digits 10 n).reverse.map Nat.digitChar).asString

/-- `` `pos_${Date.now()}` `` — the id assigned to a freshly added portfolio
position (line 256 of `portfolio-tracker.tsx`). -/
def posId (nowMs : ℕ) : String := "pos_" ++ decimalRepr nowMs

lemma digitChar_injOn :
    ∀ a < 10, ∀ b < 10, Nat.digitChar a = Nat.digitChar b → a = b := by
  decide

lemma map_digitChar_inj : ∀ l1 l2 : List ℕ, (∀ x ∈ l1, x < 10) →
    (∀ x ∈ l2, x < 10) → l1.map Nat.digitChar = l2.map Nat.digitChar →
    l1 = l2 := by
  intro l1
  induction l1 with
  | nil =>
    intro l2 _ _ h
    cases l2 with
    | nil => rfl
    | cons b t2 => simp at h
  | cons a t ih =>
    intro l2 h1 h2 h
    cases l2 with
    | nil => simp at h
    | cons b t2 =>
      simp only [List.map_cons, List.cons.injEq] at h
      have ha : a = b :=
        digitChar_injOn a (h1 a (List.mem_cons_self a t)) b
          (h2 b (List.mem_cons_self b t2)) h.1
      have ht : t = t2 :=
        ih t2 (fun x hx => h1 x (List.mem_cons_of_mem a hx))
          (fun x hx => h2 x (List.mem_cons_of_mem b hx)) h.2
      rw [ha, ht]

lemma asString_inj {l1 l2 : List Char} (h : l1.asString = l2.asString) :
    l1 = l2 := by
  have := congrArg String.data h
  simpa [List.asString] using this

lemma digits_eq_of_decimalRepr_eq {m n : ℕ} (hm : m ≠ 0) (hn : n ≠ 0)
    (h : decimalRepr m = decimalRepr n) :
    Nat.digits 10 m = Nat.digits 10 n := by
  unfold decimalRepr at h
  rw [if_neg hm, if_neg hn] at h
  have hmaps := asString_inj h
  have hrev := map_digitChar_inj _ _
    (fun x hx => Nat.digits_lt_base (by norm_num) (List.mem_reverse.mp hx))
    (fun x hx => Nat.digits_lt_base (by norm_num) (List.mem_reverse.mp hx))
    hmaps
  have := congrArg List.reverse hrev
  simpa using this

lemma decimalRepr_inj : Function.Injective decimalRepr := by
  intro m n h
  by_cases hm : m = 0 <;> by_cases hn : n = 0
  · rw [hm, hn]
  · exfalso
    unfold decimalRepr at h
    rw [if_pos hm, if_neg hn] at h
    have hd := map_digitChar_inj [0] ((Nat.digits 10 n).reverse)
      (by simp) (fun x hx => Nat.digits_lt_base (by norm_num)
        (List.mem_reverse.mp hx)) (asString_inj h)
    have hdig : Nat.digits 10 n = [0] := by
      have := congrArg List.reverse hd
      simpa using this.symm
    have := Nat.ofDigits_digits 10 n
    rw [hdig] at this
    simp [Nat.ofDigits] at this
    exact hn this.symm
  · exfalso
    unfold decimalRepr at h
    rw [if_neg hm, if_pos hn] at h
    have hd := map_digitChar_inj [0] ((Nat.digits 10 m).reverse)
      (by simp) (fun x hx => Nat.digits_lt_base (by norm_num)
        (List.mem_reverse.mp hx)) (asString_inj h.symm)
    have hdig : Nat.digits 10 m = [0] := by
      have := congrArg List.reverse hd
      simpa using this.symm
    have := Nat.ofDigits_digits 10 m
    rw [hdig] at this
    simp [Nat.ofDigits] at this
    exact hm this.symm
  · have hdig := digits_eq_of_decimalRepr_eq hm hn h
    have := congrArg (Nat.ofDigits 10) hdig
    rwa [Nat.ofDigits_digits, Nat.ofDigits_digits] at this

lemma posId_inj : Function.Injective posId := by
  intro m n h
  apply decimalRepr_inj
  have hdata := congrArg String.data h
  simp only [posId] at hdata
  have : ("pos_".data ++ (decimalRepr m).data)
      = ("pos_".data ++ (decimalRepr n).data) := by
    simpa [String.data_append] using hdata
  have hsuffix := List.append_cancel_left this
  exact String.ext hsuffix

/-- The duplicate test of `addCurrentPosition` (`positions.find(...)`, lines
236-243 of `portfolio-tracker.tsx`): same symbol, entry price within 0.01,
same leverage, same position type, and the existing position is open. -/
def isDuplicateOf (cur : Position) (p : PortfolioPosition) : Prop :=
  p.symbol = cur.symbol ∧ |p.entryPrice - cur.entryPrice| < 0.01
    ∧ p.leverage = cur.leverage ∧ p.positionType = cur.positionType
    ∧ p.status = .opened

instance (cur : Position) (p : PortfolioPosition) :
    Decidable (isDuplicateOf cur p) := by
  unfold isDuplicateOf
  infer_instance

/-- The creation-time risk level
`leverage <= 5 ? "low" : leverage <= 15 ? "medium" : "high"` (line 261). -/
def initialRiskLevel (leverage : ℚ) : RiskLevel :=
  if leverage ≤ 5 then .low else if leverage ≤ 15 then .medium else .high

/-- The `newPosition` object literal of `addCurrentPosition` (lines 254-266 of
`portfolio-tracker.tsx`).  `nowMs` is `Date.now()`, `nowTime` is
`new Date().toLocaleTimeString()` and `nowIso` is
`new Date().toISOString()`. -/
def newPortfolioPosition (cur : Position) (res : CalculationResult)
    (nowMs : ℕ) (nowTime nowIso : String) : PortfolioPosition :=
  { toPosition := cur,
    id := posId nowMs,
    currentPrice := cur.entryPrice,
    liquidationPrice := res.liquidationPrice,
    unrealizedPnL := 0,
    unrealizedPnLPercentage := 0,
    riskLevel := initialRiskLevel cur.leverage,
    distanceToLiquidation := (1 / cur.leverage) * 100,
    lastUpdated := nowTime,
    addedAt := nowIso,
    status := .opened,
    exitPrice := none, exitDate := none, realizedPnL := none,
    notes := none, closeReason := none }

/-- `addCurrentPosition` from `portfolio-tracker.tsx` (lines 225-279): with no
calculated position the store is untouched; a duplicate is rejected; otherwise
the new position is prepended. -/
def addCurrentPosition (currentPosition : Option Position)
    (currentResult : Option CalculationResult) (nowMs : ℕ)
    (nowTime nowIso : String) (positions : List PortfolioPosition) :
    List PortfolioPosition :=
  match currentPosition, currentResult with
  | some cur, some res =>
    if ∃ p ∈ positions, isDuplicateOf cur p then positions
    else newPortfolioPosition cur res nowMs nowTime nowIso :: positions
  | _, _ => positions

/-- One user-triggered "Add Position" click together with the clock readings
taken during it. -/
structure AddEvent where
  currentPosition : Position
  currentResult : CalculationResult
  nowMs : ℕ
  nowTime : String
  nowIso : String
deriving DecidableEq

/-- A sequence of add operations applied to a store, oldest first. -/
def runAdds (events : List AddEvent) (positions : List PortfolioPosition) :
    List PortfolioPosition :=
  events.foldl
    (fun ps e => addCurrentPosition (some e.currentPosition)
      (some e.currentResult) e.nowMs e.nowTime e.nowIso ps)
    positions

/-- `closePosition` from `portfolio-tracker.tsx` (lines 281-313): the only
guard is `!closeData.exitPrice` (an empty input string, modelled as `none`);
any parsed number — zero or negative included — is accepted, and the position
with the matching id is replaced by its closed copy. -/
def closePosition (positions : List PortfolioPosition)
    (closingPosition : PortfolioPosition) (exitPriceInput : Option ℚ)
    (closeNotes closeReasonInput nowIso nowTime : String) :
    List PortfolioPosition :=
  match exitPriceInput with
  | none => positions
  | some exitPrice =>
    let pnl := calculatePnL closingPosition exitPrice
    let closedPosition : PortfolioPosition :=
      { closingPosition with
        status := .closed,
        exitPrice := some exitPrice,
        exitDate := some nowIso,
        realizedPnL := some pnl.unrealizedPnL,
        notes := some closeNotes,
        closeReason := some closeReasonInput,
        lastUpdated := nowTime }
    positions.map fun pos =>
      if pos.id = closingPosition.id then closedPosition else pos

/-- `closePosition` from the duplicate tracker component `src/unnamed/part_004`
(lines 303-331): identical to the one above except that it additionally
rejects `isNaN(exitPrice) || exitPrice <= 0`. -/
def closePositionChecked (positions : List PortfolioPosition)
    (closingPosition : PortfolioPosition) (exitPriceInput : Option ℚ)
    (closeNotes closeReasonInput nowIso nowTime : String) :
    List PortfolioPosition :=
  match exitPriceInput with
  | none => positions
  | some exitPrice =>
    if exitPrice ≤ 0 then positions
    else
      let pnl := calculatePnL closingPosition exitPrice
      let closedPosition : PortfolioPosition :=
        { closingPosition with
          status := .closed,
          exitPrice := some exitPrice,
          exitDate := some nowIso,
          realizedPnL := some pnl.unrealizedPnL,
          notes := some closeNotes,
          closeReason := some closeReasonInput,
          lastUpdated := nowTime }
      positions.map fun pos =>
        if pos.id = closingPosition.id then closedPosition else pos

/-- Claim C8: the add-to-portfolio operation rejects the candidate and leaves
the store unchanged exactly when some existing Open position matches its
symbol, positionType and leverage and has an entryPrice within 0.01;
otherwise the candidate is prepended. -/
theorem addPosition_duplicate_spec (cur : Position) (res : CalculationResult)
    (nowMs : ℕ) (nowTime nowIso : String)
    (positions : List PortfolioPosition) :
    ((∃ p ∈ positions, p.symbol = cur.symbol
        ∧ p.positionType = cur.positionType ∧ p.leverage = cur.leverage
        ∧ |p.entryPrice - cur.entryPrice| < 0.01 ∧ p.status = .opened) →
      addCurrentPosition (some cur) (some res) nowMs nowTime nowIso positions
        = positions)
    ∧ (¬(∃ p ∈ positions, p.symbol = cur.symbol
        ∧ p.positionType = cur.positionType ∧ p.leverage = cur.leverage
        ∧ |p.entryPrice - cur.entryPrice| < 0.01 ∧ p.status = .opened) →
      addCurrentPosition (some cur) (some res) nowMs nowTime nowIso positions
        = newPortfolioPosition cur res nowMs nowTime nowIso :: positions) := by
  have hiff : (∃ p ∈ positions, p.symbol = cur.symbol
      ∧ p.positionType = cur.positionType ∧ p.leverage = cur.leverage
      ∧ |p.entryPrice - cur.entryPrice| < 0.01 ∧ p.status = .opened)
      ↔ ∃ p ∈ positions, isDuplicateOf cur p := by
    apply exists_congr
    intro p
    apply and_congr_right
    intro _
    unfold isDuplicateOf
    tauto
  constructor
  · intro h
    simp only [addCurrentPosition]
    rw [if_pos (hiff.mp h)]
  · intro h
    simp only [addCurrentPosition]
    rw [if_neg (fun hh => h (hiff.mpr hh))]

/-- A candidate position that duplicates `pLong` (entry price differs by
0.005 < 0.01). -/
def curW : Position :=
  { symbol := "BTC", entryPrice := 100.005, leverage := 10,
    positionType := .long, positionSize := 500, marginUsed := 50 }

/-- A calculation result to go with `curW`. -/
def resW : CalculationResult :=
  { liquidationPrice := 90, marginRequired := 50, riskPercentage := 10,
    profitLossRatio := 10, positionSize := 500 }

/-- Claim C8 witness: adding a candidate within 0.005 of the open sample
position (same symbol, type and leverage) leaves the store unchanged. -/
theorem addPosition_duplicate_spec_witness :
    addCurrentPosition (some curW) (some resW) 7 "t1" "d1" [pLong]
      = [pLong] := by
  apply (addPosition_duplicate_spec curW resW 7 "t1" "d1" [pLong]).1
  refine ⟨pLong, List.mem_singleton.mpr rfl, rfl, rfl, rfl, ?_, rfl⟩
  norm_num [pLong, curW, abs_lt]

/-- A calculated BTC position used as an add event payload. -/
def curBTC : Position :=
  { symbol := "BTC", entryPrice := 100, leverage := 10, positionType := .long,
    positionSize := 1000, marginUsed := 100 }

/-- A calculated ETH position used as an add event payload. -/
def curETH : Position :=
  { symbol := "ETH", entryPrice := 3000, leverage := 20,
    positionType := .short, positionSize := 2000, marginUsed := 100 }

/-- An add of `curBTC` at millisecond timestamp 5. -/
def evBTC : AddEvent :=
  { currentPosition := curBTC, currentResult := resW, nowMs := 5,
    nowTime := "t1", nowIso := "d1" }

/-- An add of `curETH` at the same millisecond timestamp 5. -/
def evETH : AddEvent :=
  { currentPosition := curETH, currentResult := resW, nowMs := 5,
    nowTime := "t2", nowIso := "d2" }

/-- An add of `curETH` at millisecond timestamp 6. -/
def evETH6 : AddEvent :=
  { currentPosition := curETH, currentResult := resW, nowMs := 6,
    nowTime := "t2", nowIso := "d2" }

lemma decimalRepr_five : decimalRepr 5 = "5" := by
  unfold decimalRepr
  rw [if_neg (by norm_num)]
  rw [Nat.digits_def' (by norm_num : (1 : ℕ) < 10) (by norm_num : 0 < 5)]
  norm_num
  rfl

lemma posId_five : posId 5 = "pos_5" := by
  rw [posId, decimalRepr_five]
  decide

/-- Claim C9 counterexample: two adds in the same millisecond (`Date.now()`
returning 5 both times) of non-duplicate positions produce two store entries
with the identical id `"pos_5"`. -/
theorem addPosition_id_collision :
    ((runAdds [evBTC, evETH] []).map (fun p => p.id)) = ["pos_5", "pos_5"]
    ∧ ¬ ((runAdds [evBTC, evETH] []).map (fun p => p.id)).Nodup := by
  have hids : ((runAdds [evBTC, evETH] []).map (fun p => p.id))
      = ["pos_5", "pos_5"] := by
    simp [runAdds, addCurrentPosition, newPortfolioPosition, posId_five,
      isDuplicateOf, evBTC, evETH, curBTC, curETH]
  exact ⟨hids, by rw [hids]; decide⟩

lemma runAdds_cons (e : AddEvent) (t : List AddEvent)
    (s : List PortfolioPosition) :
    runAdds (e :: t) s
      = runAdds t (addCurrentPosition (some e.currentPosition)
          (some e.currentResult) e.nowMs e.nowTime e.nowIso s) := rfl

lemma addCurrentPosition_ids (cur : Position) (res : CalculationResult)
    (nowMs : ℕ) (nowTime nowIso : String)
    (ps : List PortfolioPosition) :
    (addCurrentPosition (some cur) (some res) nowMs nowTime nowIso ps).map
        (fun p => p.id) = ps.map (fun p => p.id)
    ∨ (addCurrentPosition (some cur) (some res) nowMs nowTime nowIso ps).map
        (fun p => p.id) = posId nowMs :: ps.map (fun p => p.id) := by
  simp only [addCurrentPosition]
  split_ifs with h
  · left
    rfl
  · right
    simp [newPortfolioPosition]

lemma runAdds_nodup_aux : ∀ (events : List AddEvent)
    (s : List PortfolioPosition),
    (s.map (fun p => p.id)).Nodup →
    (∀ e ∈ events, posId e.nowMs ∉ s.map (fun p => p.id)) →
    events.Pairwise (fun e1 e2 => e1.nowMs ≠ e2.nowMs) →
    ((runAdds events s).map (fun p => p.id)).Nodup := by
  intro events
  induction events with
  | nil =>
    intro s h1 _ _
    exact h1
  | cons e t ih =>
    intro s h1 h2 h3
    rw [runAdds_cons]
    rcases List.pairwise_cons.mp h3 with ⟨hhead, htail⟩
    rcases addCurrentPosition_ids e.currentPosition e.currentResult e.nowMs
      e.nowTime e.nowIso s with hcase | hcase
    · apply ih
      · rw [hcase]
        exact h1
      · intro e' he'
        rw [hcase]
        exact h2 e' (List.mem_cons_of_mem e he')
      · exact htail
    · apply ih
      · rw [hcase]
        exact List.nodup_cons.mpr ⟨h2 e (List.mem_cons_self e t), h1⟩
      · intro e' he'
        rw [hcase]
        intro hmem
        rcases List.mem_cons.mp hmem with heq | hmem2
        · exact hhead e' he' (posId_inj heq).symm
        · exact h2 e' (List.mem_cons_of_mem e he') hmem2
      · exact htail

/-- Claim C9 (amended): a sequence of adds starting from the empty store
yields pairwise-distinct position ids provided the adds happen at pairwise
distinct millisecond timestamps (ids are `pos_` followed by `Date.now()`, so
two adds within the same millisecond collide). -/
theorem addPosition_ids_distinct (events : List AddEvent)
    (hts : events.Pairwise (fun e1 e2 => e1.nowMs ≠ e2.nowMs)) :
    ((runAdds events []).map (fun p => p.id)).Nodup :=
  runAdds_nodup_aux events [] (by simp) (by simp) hts

/-- Claim C9 witness: the two sample adds at distinct timestamps 5 and 6
produce distinct ids. -/
theorem addPosition_ids_distinct_witness :
    ((runAdds [evBTC, evETH6] []).map (fun p => p.id)).Nodup := by
  apply addPosition_ids_distinct [evBTC, evETH6]
  simp [List.pairwise_cons, evBTC, evETH6]

/-- Claim C2, evaluated at the failing input: `closePosition` of the mounted
tracker component accepts the strictly negative exit price -5 — the open
sample position is replaced by a closed copy with `exitPrice = -5` and
`realizedPnL = -10500` — whereas the duplicate component's `closePosition`
(`closePositionChecked`) rejects it and leaves the store unchanged, which is
what the claim requires. -/
theorem closePosition_negative_exit :
    (closePosition [pLong] pLong (some (-5)) "" "manual" "d1" "t1").map
        (fun q => (q.status, q.exitPrice, q.realizedPnL))
      = [(Status.closed, some (-5 : ℚ), some (-10500 : ℚ))]
    ∧ closePositionChecked [pLong] pLong (some (-5)) "" "manual" "d1" "t1"
      = [pLong] := by
  have hpnl : (calculatePnL pLong (-5)).unrealizedPnL = -10500 := by
    norm_num [calculatePnL, pLong]
  constructor
  · simp [closePosition, hpnl]
  · norm_num [closePositionChecked]

end CryptoLiq
